import Mathlib

/-!
# concat-video: shallow embedding of `main.go`

The Go program joins an ordered list of video files with `ffmpeg -f concat -c copy`
after checking, through `ffprobe`, that every file has the extension and the stream
attributes of the first one.

Go strings are embedded as `String`, Go `int` as `Int`, slices as `List`, and a Go
`error` as the text of its message (`Option String` for a returned `error`,
`Except String _` for a value-or-error pair).  The external world (file system,
`ffprobe`, `ffmpeg`, clock) is a record of functions, and the functions that touch
it also return the list of the calls they made, in order.
-/

namespace ConcatVideo

/-! ## Data model (`main.go` 14-36) -/

/-- The Go struct `stream`: one entry of the `streams` array printed by ffprobe. -/
structure stream where
  CodecName : String
  CodecType : String
  PixelFormat : String
  Width : Int
  Height : Int
  AvgFrameRate : String
  TimeBase : String
  SampleRate : String
  BitDepth : String
deriving DecidableEq, Repr

/-- The Go struct `ffProbeOutput`. -/
structure ffProbeOutput where
  Video : stream
  Audio : stream
  Streams : List stream
deriving DecidableEq, Repr

/-- The Go struct `fileArgs`. -/
structure fileArgs where
  inputDir : String
  videoFiles : List String
  outputFile : String
deriving DecidableEq, Repr

/-- The zero value of `stream`, which `var firstStreamVideo stream` declares. -/
def zeroStream : stream :=
  { CodecName := "", CodecType := "", PixelFormat := "", Width := 0, Height := 0,
    AvgFrameRate := "", TimeBase := "", SampleRate := "", BitDepth := "" }

/-! ## Standard-library functions used by the program -/

/-- The backward scan of `filepath.Ext` (Unix separator): `rev` is the part of the path
not yet visited, last byte first, and `suffix` the part already visited. -/
def extScan : List Char → List Char → List Char
  | [], _ => []
  | c :: rev, suffix =>
    if c = '/' then []
    else if c = '.' then c :: suffix
    else extScan rev (c :: suffix)

/-- Go `filepath.Ext`: the suffix beginning at the final dot of the final path
element, empty when that element has no dot.  The scan is over characters; the dot and
the slash are single bytes, so it agrees with the byte scan of Go on UTF-8 text. -/
def Ext (path : String) : String :=
  String.mk (extScan path.data.reverse [])

/-- The pieces of a character list around each occurrence of `sep`. -/
def splitChars (sep : Char) : List Char → List (List Char)
  | [] => [[]]
  | c :: cs =>
    if c = sep then [] :: splitChars sep cs
    else
      match splitChars sep cs with
      | [] => [[c]]
      | piece :: pieces => (c :: piece) :: pieces

/-- Go `strings.Split(s, sep)` for a one-character separator. -/
def Split (s : String) (sep : Char) : List String :=
  (splitChars sep s.data).map String.mk

/-- Go `fmt.Sprintf("%v", s)` for a `stream` value: the fields in declaration order,
separated by blanks, inside braces. -/
def fmtStream (s : stream) : String :=
  "\x7b" ++ s.CodecName ++ " " ++ s.CodecType ++ " " ++ s.PixelFormat ++ " " ++
    toString s.Width ++ " " ++ toString s.Height ++ " " ++ s.AvgFrameRate ++ " " ++
    s.TimeBase ++ " " ++ s.SampleRate ++ " " ++ s.BitDepth ++ "\x7d"

/-! ## The manifest (`getInputList`, `main.go` 93-99) -/

/-- One pass of the loop body's `fmt.Sprintf("file '%s'\n", videoPath)`. -/
def inputLine (videoPath : String) : String :=
  "file '" ++ videoPath ++ "'\n"

/-- The function `getInputList`: the loop `inputList += Sprintf(...)` over the paths. -/
def getInputList (videoPaths : List String) : String :=
  videoPaths.foldl (fun inputList videoPath => inputList ++ inputLine videoPath) ""

/-! ## The probe (`execFfprobeCommand`, `main.go` 177-211) -/

/-- What running `ffprobe ... -show_streams input` and decoding its output gives:
the command failed (`err`, combined output), `json.Unmarshal` failed, or the
output decoded to an object with the given `streams` array.  An output that is the
JSON literal `null` leaves the decoded pointer nil and is outside this embedding. -/
inductive ffprobeReply where
  | failed (err : String) (output : String)
  | undecodable (err : String)
  | decoded (streams : List stream)
deriving DecidableEq, Repr

/-- Scope of the variable `s` of `for _, s := range ffprobeOutput.Streams`: one
variable per iteration (Go 1.22 and later) or one for the whole loop (earlier Go).
The loop stores `&s`, so the scope decides what the stored pointers point to. -/
inductive loopVarScope where
  | perIteration
  | perLoop
deriving DecidableEq, Repr

/-- One iteration of the selection loop (lines 194-201) on the pair
`(videoStream, audioStream)`; a pointer is `none` for nil and otherwise holds the
value `s` had when its address was taken.  There is no `break`: each matching
record overwrites the pointer. -/
def selectStep (ptrs : Option stream × Option stream) (s : stream) :
    Option stream × Option stream :=
  (if s.CodecType = "video" then some s else ptrs.1,
   if s.CodecType = "audio" then some s else ptrs.2)

/-- The selection loop followed by the dereferences `*videoStream`, `*audioStream`.
With one variable per iteration a pointer still sees the value it was taken at;
with one variable for the loop every non-nil pointer sees the final value of `s`,
the last record of the list. -/
def selectStreams (scope : loopVarScope) (streams : List stream) :
    Option stream × Option stream :=
  let ptrs := streams.foldl selectStep (none, none)
  match scope with
  | .perIteration => ptrs
  | .perLoop => (ptrs.1.bind fun _ => streams.getLast?, ptrs.2.bind fun _ => streams.getLast?)

/-- The function `execFfprobeCommand`, given the reply of the external command. -/
def execFfprobeCommand (scope : loopVarScope) (ffprobe : String → ffprobeReply)
    (input : String) : Except String ffProbeOutput :=
  match ffprobe input with
  | .failed err output => .error ("failed to run ffprobe: " ++ err ++ " - " ++ output)
  | .undecodable err => .error ("failed to unmarshal JSON: " ++ err)
  | .decoded streams =>
    match selectStreams scope streams with
    | (some videoStream, some audioStream) =>
      .ok { Video := videoStream, Audio := audioStream, Streams := streams }
    | _ => .error "failed to find video and audio streams"

/-! ## The compatibility check (`checkSimilarity`, `main.go` 58-91) -/

/-- The three variables declared before the loop of `checkSimilarity`. -/
structure checkVars where
  firstStreamVideo : stream
  firstStreamAudio : stream
  firstExtension : String
deriving DecidableEq, Repr

/-- Outcome of `checkSimilarity`: the paths handed to the probe, in call order, and
the returned error (`none` for nil). -/
structure checkResult where
  probed : List String
  err : Option String
deriving DecidableEq, Repr

/-- The loop of `checkSimilarity` from index `i` on, with the variables as they
stand at the start of iteration `i`. -/
def checkLoop (probe : String → Except String ffProbeOutput) :
    Nat → checkVars → List String → checkResult
  | _, _, [] => ⟨[], none⟩
  | i, vars, videoPath :: rest =>
    let extension := Ext videoPath
    let firstExtension := if i = 0 then extension else vars.firstExtension
    if extension ≠ firstExtension then
      ⟨[], some ("got mismatched video extensions " ++ extension ++ " and " ++ firstExtension)⟩
    else
      match probe videoPath with
      | .error err =>
        ⟨[videoPath], some ("encountered error running ffprobe for " ++ videoPath ++ " - " ++ err)⟩
      | .ok out =>
        let firstStreamVideo := if i = 0 then out.Video else vars.firstStreamVideo
        let firstStreamAudio := if i = 0 then out.Audio else vars.firstStreamAudio
        if firstStreamVideo ≠ out.Video then
          ⟨[videoPath], some ("file " ++ videoPath ++ " did not match first video probe. " ++
            fmtStream out.Video ++ " vs " ++ fmtStream firstStreamVideo)⟩
        else if firstStreamAudio ≠ out.Audio then
          ⟨[videoPath], some ("file " ++ videoPath ++ " did not match first audio probe. " ++
            fmtStream out.Audio ++ " vs " ++ fmtStream firstStreamAudio)⟩
        else
          let r := checkLoop probe (i + 1) ⟨firstStreamVideo, firstStreamAudio, firstExtension⟩ rest
          ⟨videoPath :: r.probed, r.err⟩

/-- The function `checkSimilarity`, over a probe given as a function of the path. -/
def checkSimilarity (probe : String → Except String ffProbeOutput)
    (videoPaths : List String) : checkResult :=
  checkLoop probe 0 ⟨zeroStream, zeroStream, ""⟩ videoPaths

/-! ## Arguments, paths and the pipeline (`main.go` 38-56, 101-165) -/

/-- The function `getArgs` on the argument vector `os.Args`; `Join` is `filepath.Join`. -/
def getArgs (Join : String → String → String) (args : List String) : Except String fileArgs :=
  if args.length < 4 then
    .error ("need at least 3 args for input directory, " ++
      "video inputs (comma separated) and output file name, got " ++ toString args.length)
  else
    let inputDir := args.getD 1 ""
    let videoInputs := Split (args.getD 2 "") ','
    if videoInputs.length < 2 then
      .error ("expected at least 2 input videos, got " ++ toString videoInputs.length)
    else
      let outputFile := Join inputDir (args.getD 3 "")
      .ok { inputDir := inputDir, videoFiles := videoInputs, outputFile := outputFile }

/-- The external collaborators of one run. `Stat` answers `IsDir`, `ffmpeg` gives the
combined output and the error, `Unix` is `time.Now().Unix()`. -/
structure World where
  scope : loopVarScope
  Join : String → String → String
  Stat : String → Except String Bool
  ffprobe : String → ffprobeReply
  WriteFile : String → String → Option String
  ffmpeg : String → String → String × Option String
  Remove : String → Option String
  Unix : Int

/-- The calls a run makes to the outside. -/
inductive Effect where
  | stat (path : String)
  | probe (path : String)
  | write (path : String) (content : String)
  | concat (manifest : String) (output : String)
  | delete (path : String)
deriving DecidableEq, Repr

/-- The function `getVideoPath`. -/
def getVideoPath (w : World) (file : String) (inputDir : String) : Except String String :=
  let videoPath := w.Join inputDir file
  match w.Stat videoPath with
  | .error err => .error ("failed to find video " ++ videoPath ++ " - " ++ err)
  | .ok isDir =>
    if isDir then .error ("provided video file " ++ videoPath ++ " is a directory")
    else .ok videoPath

/-- The loop of `getVideoPaths`, with the slice `videoPaths` built so far. -/
def getVideoPathsLoop (w : World) (inputDir : String) :
    List String → List String → List Effect × Except String (List String)
  | [], videoPaths => ([], .ok videoPaths)
  | videoFile :: rest, videoPaths =>
    match getVideoPath w videoFile inputDir with
    | .error err =>
      ([.stat (w.Join inputDir videoFile)], .error ("failed to get video path: " ++ err))
    | .ok videoPath =>
      let r := getVideoPathsLoop w inputDir rest (videoPaths ++ [videoPath])
      (.stat (w.Join inputDir videoFile) :: r.1, r.2)

/-- The function `getVideoPaths`. -/
def getVideoPaths (w : World) (fa : fileArgs) : List Effect × Except String (List String) :=
  getVideoPathsLoop w fa.inputDir fa.videoFiles []

/-- The function `createTempFile`. -/
def createTempFile (w : World) (inputDir : String) (inputList : String) :
    List Effect × Except String String :=
  let tempFile := w.Join inputDir ("tmp" ++ toString w.Unix ++ ".txt")
  match w.WriteFile tempFile inputList with
  | some err => ([.write tempFile inputList], .error ("failed to create file: " ++ err))
  | none => ([.write tempFile inputList], .ok tempFile)

/-- The function `concatenateVideos`. -/
def concatenateVideos (w : World) (fa : fileArgs) (inputList : String) :
    List Effect × Option String :=
  match createTempFile w fa.inputDir inputList with
  | (t, .error err) => (t, some ("failed to create temp file: " ++ err))
  | (t, .ok tempFile) =>
    match w.ffmpeg tempFile fa.outputFile with
    | (output, some err) =>
      (t ++ [.concat tempFile fa.outputFile],
        some ("ffmpeg failed: " ++ err ++ "\nOutput: " ++ output))
    | (_, none) =>
      match w.Remove tempFile with
      | some err =>
        (t ++ [.concat tempFile fa.outputFile, .delete tempFile],
          some ("failed to delete temp file: " ++ err))
      | none => (t ++ [.concat tempFile fa.outputFile, .delete tempFile], none)

/-- The function `main`: the calls made, and the message of `log.Fatalf` when the
run ends in failure (`none` when it returns normally). -/
def main (w : World) (args : List String) : List Effect × Option String :=
  match getArgs w.Join args with
  | .error err => ([], some ("failed to get args: " ++ err))
  | .ok fa =>
    match getVideoPaths w fa with
    | (t, .error err) => (t, some ("failed to get video paths: " ++ err))
    | (t, .ok videoPaths) =>
      let c := checkSimilarity (execFfprobeCommand w.scope w.ffprobe) videoPaths
      match c.err with
      | some err => (t ++ c.probed.map Effect.probe, some ("similarity check failed: " ++ err))
      | none =>
        let r := concatenateVideos w fa (getInputList videoPaths)
        (t ++ c.probed.map Effect.probe ++ r.1, r.2.map fun err => "failed to concatenate: " ++ err)

/-- An effect that comes after the compatibility gate: manifest write, concatenation
call or manifest delete. -/
def Effect.downstream : Effect → Bool
  | .write _ _ => true
  | .concat _ _ => true
  | .delete _ => true
  | _ => false

/-! ## Reading a manifest back -/

/-- The lines of a text, each without its terminating newline; a last line that is
not terminated counts as a line. -/
def lineChars : List Char → List (List Char)
  | [] => []
  | c :: cs =>
    if c = '\n' then [] :: lineChars cs
    else
      match lineChars cs with
      | [] => [[c]]
      | line :: more => (c :: line) :: more

/-- The lines of a manifest, as strings. -/
def manifestLines (manifest : String) : List String :=
  (lineChars manifest.data).map String.mk

/-- A path is newline-free when none of its characters is the newline. -/
def newlineFree (path : String) : Prop := '\n' ∉ path.data

instance (path : String) : Decidable (newlineFree path) := by
  unfold newlineFree; infer_instance

/-! ## Vocabulary for the statements about the check and the probe -/

/-- A path passes an iteration of the check after the first: its extension is the
recorded one, its probe succeeds and gives the recorded video and audio records. -/
def passes (probe : String → Except String ffProbeOutput) (vars : checkVars) (p : String) : Prop :=
  Ext p = vars.firstExtension ∧
    ∃ out, probe p = .ok out ∧ out.Video = vars.firstStreamVideo ∧ out.Audio = vars.firstStreamAudio

/-- The first record of a stream list with the given codec type. -/
def firstOfKind (kind : String) (streams : List stream) : Option stream :=
  streams.find? fun s => decide (s.CodecType = kind)

/-- The last record of a stream list with the given codec type. -/
def lastOfKind (kind : String) (streams : List stream) : Option stream :=
  streams.reverse.find? fun s => decide (s.CodecType = kind)

/-- A stream list has a record of the given codec type. -/
def hasKind (kind : String) (streams : List stream) : Prop :=
  ∃ s ∈ streams, s.CodecType = kind

instance (kind : String) (streams : List stream) : Decidable (hasKind kind streams) := by
  unfold hasKind; infer_instance

/-! ## Sample data for the concrete instances -/

/-- An H.264 video record of the given size. -/
def sampleVideo (width height : Int) : stream :=
  { CodecName := "H.264 / AVC / MPEG-4 AVC / MPEG-4 part 10", CodecType := "video",
    PixelFormat := "yuv420p", Width := width, Height := height, AvgFrameRate := "30/1",
    TimeBase := "1/15360", SampleRate := "", BitDepth := "8" }

/-- An AAC audio record at 48 kHz. -/
def sampleAudio : stream :=
  { CodecName := "AAC (Advanced Audio Coding)", CodecType := "audio", PixelFormat := "",
    Width := 0, Height := 0, AvgFrameRate := "0/0", TimeBase := "1/48000",
    SampleRate := "48000", BitDepth := "" }

/-- A probe that reports the same 1920x1080 video and audio for every path. -/
def uniformProbe (_ : String) : Except String ffProbeOutput :=
  .ok ⟨sampleVideo 1920 1080, sampleAudio, [sampleVideo 1920 1080, sampleAudio]⟩

/-- A probe that reports 1280x720 video for `b.mp4` and 1920x1080 for any other path. -/
def mixedProbe (path : String) : Except String ffProbeOutput :=
  if path = "b.mp4" then .ok ⟨sampleVideo 1280 720, sampleAudio, [sampleVideo 1280 720, sampleAudio]⟩
  else .ok ⟨sampleVideo 1920 1080, sampleAudio, [sampleVideo 1920 1080, sampleAudio]⟩

/-- An ffprobe whose reply for `b.mp4` has an audio stream only. -/
def audioOnlyReply (path : String) : ffprobeReply :=
  if path = "b.mp4" then .decoded [sampleAudio]
  else .decoded [sampleVideo 1920 1080, sampleAudio]

/-- A world in which every file exists, every probe reports the same streams and
every external call succeeds; paths are joined with a slash. -/
def sampleWorld : World :=
  { scope := .perIteration
    Join := fun dir file => dir ++ "/" ++ file
    Stat := fun _ => .ok false
    ffprobe := fun _ => .decoded [sampleVideo 1920 1080, sampleAudio]
    WriteFile := fun _ _ => none
    ffmpeg := fun _ _ => ("", none)
    Remove := fun _ => none
    Unix := 1700000000 }

/-! ## Lemmas on the manifest -/

theorem inputLine_data (p : String) :
    (inputLine p).data = ("file '".data ++ p.data ++ "'".data) ++ ['\n'] := by
  simp [inputLine, String.data_append]

theorem foldl_inputLine_data (ps : List String) (acc : String) :
    (ps.foldl (fun inputList videoPath => inputList ++ inputLine videoPath) acc).data =
      acc.data ++ (ps.map fun p => (inputLine p).data).flatten := by
  induction ps generalizing acc with
  | nil => simp
  | cons p ps ih => simp [ih, String.data_append, List.append_assoc]

theorem getInputList_data (ps : List String) :
    (getInputList ps).data = (ps.map fun p => (inputLine p).data).flatten := by
  simp [getInputList, foldl_inputLine_data]

theorem lineChars_append_newline (l rest : List Char) (h : '\n' ∉ l) :
    lineChars (l ++ '\n' :: rest) = l :: lineChars rest := by
  induction l with
  | nil => simp [lineChars]
  | cons c l ih =>
    have hc : c ≠ '\n' := fun e => h (by simp [e])
    have hl : '\n' ∉ l := fun m => h (List.mem_cons_of_mem _ m)
    simp [lineChars, hc, ih hl]

theorem lineChars_manifest (ps : List String) (h : ∀ p ∈ ps, newlineFree p) :
    lineChars (ps.map fun p => (inputLine p).data).flatten =
      ps.map fun p => "file '".data ++ p.data ++ "'".data := by
  induction ps with
  | nil => simp [lineChars]
  | cons p ps ih =>
    have hp : '\n' ∉ ("file '".data ++ p.data ++ "'".data) := by
      have := h p (List.mem_cons_self _ _)
      unfold newlineFree at this
      simp [this]
    have hps : ∀ q ∈ ps, newlineFree q := fun q hq => h q (List.mem_cons_of_mem _ hq)
    have e : ((p :: ps).map fun p => (inputLine p).data).flatten =
        ("file '".data ++ p.data ++ "'".data) ++
          '\n' :: (ps.map fun p => (inputLine p).data).flatten := by
      simp [inputLine_data]
    rw [e, lineChars_append_newline _ _ hp, ih hps]
    simp

theorem manifestLines_getInputList (ps : List String) (h : ∀ p ∈ ps, newlineFree p) :
    manifestLines (getInputList ps) = ps.map fun p => "file '" ++ p ++ "'" := by
  unfold manifestLines
  rw [getInputList_data, lineChars_manifest ps h]
  simp only [List.map_map]
  apply List.map_congr_left
  intro p _
  apply String.ext
  simp [String.data_append]

theorem getInputList_injective_of_newlineFree (ps qs : List String)
    (hp : ∀ p ∈ ps, newlineFree p) (hq : ∀ q ∈ qs, newlineFree q)
    (h : getInputList ps = getInputList qs) : ps = qs := by
  have e : manifestLines (getInputList ps) = manifestLines (getInputList qs) := by rw [h]
  rw [manifestLines_getInputList ps hp, manifestLines_getInputList qs hq] at e
  have inj : Function.Injective (fun p : String => "file '" ++ p ++ "'") := by
    intro a b hab
    have := congrArg String.data hab
    simp only [String.data_append] at this
    apply String.ext
    have := List.append_cancel_right this
    exact List.append_cancel_left this
  exact (List.map_injective_iff.mpr inj) e

/-! ## Lemmas on the check loop -/

theorem checkLoop_cons_succ (probe : String → Except String ffProbeOutput) (i : Nat)
    (vars : checkVars) (p : String) (rest : List String) :
    checkLoop probe (i + 1) vars (p :: rest) =
      if Ext p ≠ vars.firstExtension then
        ⟨[], some ("got mismatched video extensions " ++ Ext p ++ " and " ++ vars.firstExtension)⟩
      else
        match probe p with
        | .error err =>
          ⟨[p], some ("encountered error running ffprobe for " ++ p ++ " - " ++ err)⟩
        | .ok out =>
          if vars.firstStreamVideo ≠ out.Video then
            ⟨[p], some ("file " ++ p ++ " did not match first video probe. " ++
              fmtStream out.Video ++ " vs " ++ fmtStream vars.firstStreamVideo)⟩
          else if vars.firstStreamAudio ≠ out.Audio then
            ⟨[p], some ("file " ++ p ++ " did not match first audio probe. " ++
              fmtStream out.Audio ++ " vs " ++ fmtStream vars.firstStreamAudio)⟩
          else
            ⟨p :: (checkLoop probe (i + 2) vars rest).probed,
              (checkLoop probe (i + 2) vars rest).err⟩ := by
  rfl

theorem checkLoop_cons_zero (probe : String → Except String ffProbeOutput)
    (vars : checkVars) (p : String) (rest : List String) :
    checkLoop probe 0 vars (p :: rest) =
      match probe p with
      | .error err =>
        ⟨[p], some ("encountered error running ffprobe for " ++ p ++ " - " ++ err)⟩
      | .ok out =>
        ⟨p :: (checkLoop probe 1 ⟨out.Video, out.Audio, Ext p⟩ rest).probed,
          (checkLoop probe 1 ⟨out.Video, out.Audio, Ext p⟩ rest).err⟩ := by
  simp only [checkLoop, if_true, ne_eq, not_true_eq_false, if_false]

theorem checkLoop_cons_pass (probe : String → Except String ffProbeOutput) (i : Nat)
    (vars : checkVars) (p : String) (rest : List String) (h : passes probe vars p) :
    checkLoop probe (i + 1) vars (p :: rest) =
      ⟨p :: (checkLoop probe (i + 2) vars rest).probed, (checkLoop probe (i + 2) vars rest).err⟩ := by
  obtain ⟨he, out, ho, hv, ha⟩ := h
  rw [checkLoop_cons_succ]
  simp [he, ho, hv, ha]

theorem checkLoop_err_none_imp (probe : String → Except String ffProbeOutput) (i : Nat)
    (vars : checkVars) (p : String) (rest : List String)
    (h : (checkLoop probe (i + 1) vars (p :: rest)).err = none) :
    passes probe vars p ∧ (checkLoop probe (i + 2) vars rest).err = none := by
  rw [checkLoop_cons_succ] at h
  by_cases he : Ext p = vars.firstExtension
  · cases ho : probe p with
    | error err => simp [he, ho] at h
    | ok out =>
      by_cases hv : vars.firstStreamVideo = out.Video
      · by_cases ha : vars.firstStreamAudio = out.Audio
        · simp [he, ho, hv, ha] at h
          exact ⟨⟨he, out, ho, hv.symm, ha.symm⟩, h⟩
        · simp [he, ho, hv, ha] at h
      · simp [he, ho, hv] at h
  · simp [he] at h

theorem checkLoop_err_none_iff (probe : String → Except String ffProbeOutput)
    (vars : checkVars) (ps : List String) (i : Nat) :
    (checkLoop probe (i + 1) vars ps).err = none ↔ ∀ p ∈ ps, passes probe vars p := by
  induction ps generalizing i with
  | nil => simp [checkLoop]
  | cons p rest ih =>
    constructor
    · intro h
      obtain ⟨hp, hr⟩ := checkLoop_err_none_imp probe i vars p rest h
      intro q hq
      rcases List.mem_cons.mp hq with e | m
      · exact e ▸ hp
      · exact (ih (i + 1)).mp hr q m
    · intro h
      rw [checkLoop_cons_pass probe i vars p rest (h p (List.mem_cons_self _ _))]
      exact (ih (i + 1)).mpr fun q hq => h q (List.mem_cons_of_mem _ hq)

theorem checkLoop_append_pass (probe : String → Except String ffProbeOutput)
    (vars : checkVars) (pre rest : List String) (i : Nat)
    (h : ∀ p ∈ pre, passes probe vars p) :
    checkLoop probe (i + 1) vars (pre ++ rest) =
      ⟨pre ++ (checkLoop probe (i + 1 + pre.length) vars rest).probed,
        (checkLoop probe (i + 1 + pre.length) vars rest).err⟩ := by
  induction pre generalizing i with
  | nil => simp
  | cons p pre ih =>
    rw [List.cons_append, checkLoop_cons_pass probe i vars p _ (h p (List.mem_cons_self _ _)),
      ih (i + 1) fun q hq => h q (List.mem_cons_of_mem _ hq)]
    have e : i + 1 + 1 + pre.length = i + 1 + (p :: pre).length := by
      simp only [List.length_cons]; omega
    simp [e]

/-! ## Lemmas on stream selection -/

theorem lastOfKind_cons (kind : String) (s : stream) (rest : List stream) :
    lastOfKind kind (s :: rest) =
      (lastOfKind kind rest).or (if s.CodecType = kind then some s else none) := by
  simp [lastOfKind, List.find?_append]

theorem foldl_selectStep (streams : List stream) (ptrs : Option stream × Option stream) :
    streams.foldl selectStep ptrs =
      ((lastOfKind "video" streams).or ptrs.1, (lastOfKind "audio" streams).or ptrs.2) := by
  induction streams generalizing ptrs with
  | nil => simp [lastOfKind]
  | cons s rest ih =>
    rw [List.foldl_cons, ih, lastOfKind_cons, lastOfKind_cons]
    cases hv : lastOfKind "video" rest <;> cases ha : lastOfKind "audio" rest <;>
      by_cases h1 : s.CodecType = "video" <;> by_cases h2 : s.CodecType = "audio" <;>
      simp [selectStep, h1, h2]

theorem selectStreams_perIteration (streams : List stream) :
    selectStreams .perIteration streams = (lastOfKind "video" streams, lastOfKind "audio" streams) := by
  simp [selectStreams, foldl_selectStep, Option.or_none]

theorem selectStreams_perLoop (streams : List stream) (hv : hasKind "video" streams)
    (ha : hasKind "audio" streams) :
    selectStreams .perLoop streams = (streams.getLast?, streams.getLast?) := by
  obtain ⟨v, ev⟩ : ∃ s, lastOfKind "video" streams = some s := by
    cases e : lastOfKind "video" streams with
    | none =>
      have : ¬ hasKind "video" streams := by simpa [lastOfKind, hasKind] using e
      exact absurd hv this
    | some s => exact ⟨s, rfl⟩
  obtain ⟨a, ea⟩ : ∃ s, lastOfKind "audio" streams = some s := by
    cases e : lastOfKind "audio" streams with
    | none =>
      have : ¬ hasKind "audio" streams := by simpa [lastOfKind, hasKind] using e
      exact absurd ha this
    | some s => exact ⟨s, rfl⟩
  simp [selectStreams, foldl_selectStep, ev, ea]

theorem lastOfKind_eq_none_iff (kind : String) (streams : List stream) :
    lastOfKind kind streams = none ↔ ¬ hasKind kind streams := by
  simp [lastOfKind, hasKind]

theorem lastOfKind_of_hasKind (kind : String) (streams : List stream) (h : hasKind kind streams) :
    ∃ s, lastOfKind kind streams = some s := by
  cases e : lastOfKind kind streams with
  | none => exact absurd h ((lastOfKind_eq_none_iff kind streams).mp e)
  | some s => exact ⟨s, rfl⟩

theorem selectStreams_missing (scope : loopVarScope) (streams : List stream)
    (h : ¬ hasKind "video" streams ∨ ¬ hasKind "audio" streams) :
    (selectStreams scope streams).1 = none ∨ (selectStreams scope streams).2 = none := by
  rcases h with h | h
  · left
    have := (lastOfKind_eq_none_iff "video" streams).mpr h
    cases scope <;> simp [selectStreams, foldl_selectStep, Option.or_none, this]
  · right
    have := (lastOfKind_eq_none_iff "audio" streams).mpr h
    cases scope <;> simp [selectStreams, foldl_selectStep, Option.or_none, this]

theorem execFfprobeCommand_missing (scope : loopVarScope) (ffprobe : String → ffprobeReply)
    (input : String) (streams : List stream) (hr : ffprobe input = .decoded streams)
    (h : ¬ hasKind "video" streams ∨ ¬ hasKind "audio" streams) :
    execFfprobeCommand scope ffprobe input = .error "failed to find video and audio streams" := by
  have hm := selectStreams_missing scope streams h
  simp only [execFfprobeCommand, hr]
  rcases hs : selectStreams scope streams with ⟨v, a⟩
  rw [hs] at hm
  rcases hm with e | e
  · simp only at e
    subst e
    rfl
  · simp only at e
    subst e
    cases v <;> rfl

/-! ## Lemmas on splitting and on the path loop -/

theorem splitChars_length (sep : Char) (l : List Char) :
    (splitChars sep l).length = l.count sep + 1 := by
  induction l with
  | nil => simp [splitChars]
  | cons c cs ih =>
    by_cases h : c = sep
    · subst h
      simp [splitChars, ih]
    · have hne : (c == sep) = false := by simpa using h
      rw [splitChars, if_neg h, List.count_cons, hne]
      cases e : splitChars sep cs with
      | nil => rw [e] at ih; simp at ih
      | cons piece pieces => rw [e] at ih; simpa using ih

theorem Split_length (s : String) (sep : Char) :
    (Split s sep).length = s.data.count sep + 1 := by
  simp [Split, splitChars_length]

theorem getVideoPathsLoop_trace (w : World) (inputDir : String) (files acc : List String) :
    ∀ e ∈ (getVideoPathsLoop w inputDir files acc).1, e.downstream = false := by
  induction files generalizing acc with
  | nil => simp [getVideoPathsLoop]
  | cons f rest ih =>
    unfold getVideoPathsLoop
    cases getVideoPath w f inputDir with
    | error err => simp [Effect.downstream]
    | ok p =>
      intro e he
      simp only [List.mem_cons] at he
      rcases he with rfl | he
      · rfl
      · exact ih _ e he

theorem count_newline_inputLine (p : String) (h : newlineFree p) :
    (inputLine p).data.count '\n' = 1 := by
  unfold newlineFree at h
  rw [inputLine_data]
  simp [List.count_append, List.count_eq_zero.mpr h]

theorem count_newline_getInputList (ps : List String) (h : ∀ p ∈ ps, newlineFree p) :
    (getInputList ps).data.count '\n' = ps.length := by
  rw [getInputList_data]
  induction ps with
  | nil => simp
  | cons p ps ih =>
    have hps : ∀ q ∈ ps, newlineFree q := fun q hq => h q (List.mem_cons_of_mem _ hq)
    rw [List.map_cons, List.flatten_cons, List.count_append,
      count_newline_inputLine p (h p (List.mem_cons_self _ _)), ih hps, List.length_cons]
    omega

/-! ## The manifest: claims C1, C3, C10 -/

/-- C1: for every list of paths the manifest returned by `getInputList` is, character
for character, the concatenation in list order of the entries `file '<path>'` followed
by a newline; for the two clips of the scenario it is the text of the scenario, and for
the empty list it is the empty string. -/
theorem getInputList_is_concatenation :
    (∀ ps : List String,
      (getInputList ps).data = (ps.map fun p => ("file '" ++ p ++ "'\n").data).flatten) ∧
    getInputList ["/videos/clip1.mp4", "/videos/clip2.mp4"] =
      "file '/videos/clip1.mp4'\nfile '/videos/clip2.mp4'\n" ∧
    getInputList [] = "" :=
  ⟨fun ps => getInputList_data ps, by decide, by decide⟩

/-- C3 as stated fails: a list of two paths whose first path holds a newline gives a
manifest of three lines, none of which is the entry of the first path. -/
theorem manifest_lines_newline_counterexample :
    ["a\nb", "c"].length = 2 ∧
    manifestLines (getInputList ["a\nb", "c"]) = ["file 'a", "b'", "file 'c'"] ∧
    (manifestLines (getInputList ["a\nb", "c"])).length ≠ ["a\nb", "c"].length := by
  decide

/-- C3, amended: for any list of n ≥ 2 newline-free paths, the manifest returned by
`getInputList` has exactly n lines and exactly n newline characters, and its i-th
line is `file '<p_i>'` for the i-th path of the list. -/
theorem manifest_lines_of_newlineFree (ps : List String) (hn : 2 ≤ ps.length)
    (hf : ∀ p ∈ ps, newlineFree p) :
    (manifestLines (getInputList ps)).length = ps.length ∧
    (getInputList ps).data.count '\n' = ps.length ∧
    ∀ i (h : i < ps.length),
      (manifestLines (getInputList ps))[i]? = some ("file '" ++ ps[i] ++ "'") := by
  have _ := hn
  refine ⟨?_, count_newline_getInputList ps hf, ?_⟩
  · simp [manifestLines_getInputList ps hf]
  · intro i h
    simp [manifestLines_getInputList ps hf, List.getElem?_eq_getElem h]

/-- The amended C3 at the two clips of the scenario. -/
theorem manifest_lines_of_newlineFree_witness :
    2 ≤ ["/videos/clip1.mp4", "/videos/clip2.mp4"].length ∧
    (∀ p ∈ ["/videos/clip1.mp4", "/videos/clip2.mp4"], newlineFree p) ∧
    (manifestLines (getInputList ["/videos/clip1.mp4", "/videos/clip2.mp4"])).length = 2 :=
  ⟨by decide, by decide,
    (manifest_lines_of_newlineFree ["/videos/clip1.mp4", "/videos/clip2.mp4"]
      (by decide) (by decide)).1⟩

/-- C10: on lists of newline-free paths `getInputList` is injective, so the manifest
determines the files and their order; without that precondition it is not, since the
one-path list `a'\nfile 'b` and the two-path list `a`, `b` have the same manifest. -/
theorem getInputList_injective_on_newlineFree :
    (∀ ps qs : List String, (∀ p ∈ ps, newlineFree p) → (∀ q ∈ qs, newlineFree q) →
      getInputList ps = getInputList qs → ps = qs) ∧
    (["a'\nfile 'b"] ≠ ["a", "b"] ∧ getInputList ["a'\nfile 'b"] = getInputList ["a", "b"]) :=
  ⟨getInputList_injective_of_newlineFree, by decide, by decide⟩

/-- C10 at two equal manifests of newline-free paths. -/
theorem getInputList_injective_on_newlineFree_witness :
    (∀ p ∈ ["a.mp4", "b.mp4"], newlineFree p) ∧
    getInputList ["a.mp4", "b.mp4"] = "file 'a.mp4'\nfile 'b.mp4'\n" ∧
    ["a.mp4", "b.mp4"] = ["a.mp4", "b.mp4"] :=
  ⟨by decide, by decide,
    getInputList_injective_on_newlineFree.1 ["a.mp4", "b.mp4"] ["a.mp4", "b.mp4"]
      (by decide) (by decide) rfl⟩

/-! ## Stream selection: claims C4, C7 -/

/-- C4 as stated fails: for the stream list video 1920x1080, video 1280x720, audio, the
first video record is the 1920x1080 one, but the probe result holds the 1280x720
record with one loop variable per iteration, and the audio record (the last record of
the list) with one variable for the whole loop. -/
theorem first_video_not_selected :
    hasKind "video" [sampleVideo 1920 1080, sampleVideo 1280 720, sampleAudio] ∧
    hasKind "audio" [sampleVideo 1920 1080, sampleVideo 1280 720, sampleAudio] ∧
    firstOfKind "video" [sampleVideo 1920 1080, sampleVideo 1280 720, sampleAudio] =
      some (sampleVideo 1920 1080) ∧
    execFfprobeCommand .perIteration
        (fun _ => .decoded [sampleVideo 1920 1080, sampleVideo 1280 720, sampleAudio]) "clip.mp4" =
      .ok ⟨sampleVideo 1280 720, sampleAudio,
        [sampleVideo 1920 1080, sampleVideo 1280 720, sampleAudio]⟩ ∧
    execFfprobeCommand .perLoop
        (fun _ => .decoded [sampleVideo 1920 1080, sampleVideo 1280 720, sampleAudio]) "clip.mp4" =
      .ok ⟨sampleAudio, sampleAudio,
        [sampleVideo 1920 1080, sampleVideo 1280 720, sampleAudio]⟩ ∧
    sampleVideo 1280 720 ≠ sampleVideo 1920 1080 ∧ sampleAudio ≠ sampleVideo 1920 1080 :=
  ⟨by decide, by decide, by decide, rfl, rfl, by decide, by decide⟩

/-- C4, amended: for every stream list with at least one record of codec type "video"
and at least one of codec type "audio", the probe (one loop variable per iteration)
succeeds, and its Video attributes are those of the last "video"-typed record of the
list and its Audio attributes those of the last "audio"-typed record. -/
theorem execFfprobeCommand_selects_last (ffprobe : String → ffprobeReply) (input : String)
    (streams : List stream) (hr : ffprobe input = .decoded streams)
    (hv : hasKind "video" streams) (ha : hasKind "audio" streams) :
    ∃ out, execFfprobeCommand .perIteration ffprobe input = .ok out ∧
      out.Streams = streams ∧
      lastOfKind "video" streams = some out.Video ∧
      lastOfKind "audio" streams = some out.Audio := by
  obtain ⟨v, ev⟩ := lastOfKind_of_hasKind "video" streams hv
  obtain ⟨a, ea⟩ := lastOfKind_of_hasKind "audio" streams ha
  refine ⟨⟨v, a, streams⟩, ?_, rfl, ev, ea⟩
  simp only [execFfprobeCommand, hr, selectStreams_perIteration, ev, ea]

/-- The amended C4 at the stream list video 1920x1080, video 1280x720, audio. -/
theorem execFfprobeCommand_selects_last_witness :
    hasKind "video" [sampleVideo 1920 1080, sampleVideo 1280 720, sampleAudio] ∧
    hasKind "audio" [sampleVideo 1920 1080, sampleVideo 1280 720, sampleAudio] ∧
    ∃ out, execFfprobeCommand .perIteration
        (fun _ => .decoded [sampleVideo 1920 1080, sampleVideo 1280 720, sampleAudio]) "clip.mp4" =
          .ok out ∧
      out.Streams = [sampleVideo 1920 1080, sampleVideo 1280 720, sampleAudio] ∧
      lastOfKind "video" [sampleVideo 1920 1080, sampleVideo 1280 720, sampleAudio] =
        some out.Video ∧
      lastOfKind "audio" [sampleVideo 1920 1080, sampleVideo 1280 720, sampleAudio] =
        some out.Audio :=
  ⟨by decide, by decide,
    execFfprobeCommand_selects_last
      (fun _ => .decoded [sampleVideo 1920 1080, sampleVideo 1280 720, sampleAudio]) "clip.mp4"
      [sampleVideo 1920 1080, sampleVideo 1280 720, sampleAudio] rfl (by decide) (by decide)⟩

/-! ## The check: claims C2, C5, C6, C7 -/

theorem checkLoop_succ_eq (probe : String → Except String ffProbeOutput) (vars : checkVars)
    (ps : List String) (i : Nat) :
    checkLoop probe (i + 1) vars ps = checkLoop probe 1 vars ps := by
  induction ps generalizing i with
  | nil => simp [checkLoop]
  | cons p rest ih =>
    have a := checkLoop_cons_succ probe i vars p rest
    have b := checkLoop_cons_succ probe 0 vars p rest
    have e1 : checkLoop probe (i + 2) vars rest = checkLoop probe 1 vars rest := ih (i + 1)
    have e2 : checkLoop probe (0 + 2) vars rest = checkLoop probe 1 vars rest := ih 1
    rw [e1] at a
    rw [e2] at b
    exact a.trans b.symm

theorem checkLoop_one_append (probe : String → Except String ffProbeOutput) (vars : checkVars)
    (pre rest : List String) (h : ∀ p ∈ pre, passes probe vars p) :
    checkLoop probe 1 vars (pre ++ rest) =
      ⟨pre ++ (checkLoop probe 1 vars rest).probed, (checkLoop probe 1 vars rest).err⟩ := by
  have a := checkLoop_append_pass probe vars pre rest 0 h
  have e : checkLoop probe (0 + 1 + pre.length) vars rest = checkLoop probe 1 vars rest := by
    have : 0 + 1 + pre.length = pre.length + 1 := by omega
    rw [this]
    exact checkLoop_succ_eq probe vars rest pre.length
  rw [e] at a
  exact a

theorem checkSimilarity_cons_ok (probe : String → Except String ffProbeOutput) (p0 : String)
    (rest : List String) (out0 : ffProbeOutput) (h0 : probe p0 = .ok out0) :
    checkSimilarity probe (p0 :: rest) =
      ⟨p0 :: (checkLoop probe 1 ⟨out0.Video, out0.Audio, Ext p0⟩ rest).probed,
        (checkLoop probe 1 ⟨out0.Video, out0.Audio, Ext p0⟩ rest).err⟩ := by
  unfold checkSimilarity
  rw [checkLoop_cons_zero, h0]

theorem checkSimilarity_cons_error (probe : String → Except String ffProbeOutput) (p0 : String)
    (rest : List String) (err : String) (h0 : probe p0 = .error err) :
    checkSimilarity probe (p0 :: rest) =
      ⟨[p0], some ("encountered error running ffprobe for " ++ p0 ++ " - " ++ err)⟩ := by
  unfold checkSimilarity
  rw [checkLoop_cons_zero, h0]

theorem checkSimilarity_cons_err_none_iff (probe : String → Except String ffProbeOutput)
    (p0 : String) (rest : List String) :
    (checkSimilarity probe (p0 :: rest)).err = none ↔
      ∃ out0, probe p0 = .ok out0 ∧
        ∀ p ∈ rest, passes probe ⟨out0.Video, out0.Audio, Ext p0⟩ p := by
  cases h0 : probe p0 with
  | error err => simp [checkSimilarity_cons_error probe p0 rest err h0]
  | ok out0 =>
    rw [checkSimilarity_cons_ok probe p0 rest out0 h0]
    simp only [Except.ok.injEq, exists_eq_left']
    exact checkLoop_err_none_iff probe _ rest 0

theorem checkSimilarity_probes_ok (probe : String → Except String ffProbeOutput)
    (ps : List String) (h : (checkSimilarity probe ps).err = none) :
    ∀ p ∈ ps, ∃ out, probe p = .ok out := by
  cases ps with
  | nil => simp
  | cons p0 rest =>
    obtain ⟨out0, h0, hr⟩ := (checkSimilarity_cons_err_none_iff probe p0 rest).mp h
    intro p hp
    rcases List.mem_cons.mp hp with e | m
    · exact ⟨out0, e ▸ h0⟩
    · obtain ⟨_, out, ho, _, _⟩ := hr p m
      exact ⟨out, ho⟩

/-- C2: with the probe a function from a path to an error or a record pair,
`checkSimilarity` returns nil for a list of paths exactly when (a) every path has the
extension of the first path, (b) the probe succeeds for every path, and (c) every
path's video record and audio record equal those of the first path. -/
theorem checkSimilarity_nil_iff (probe : String → Except String ffProbeOutput)
    (ps : List String) :
    (checkSimilarity probe ps).err = none ↔
      (∀ p0 ∈ ps.head?, ∀ p ∈ ps, Ext p = Ext p0) ∧
      (∀ p ∈ ps, ∃ out, probe p = .ok out) ∧
      (∀ p0 ∈ ps.head?, ∀ p ∈ ps, ∀ out0 out, probe p0 = .ok out0 → probe p = .ok out →
        out.Video = out0.Video ∧ out.Audio = out0.Audio) := by
  cases ps with
  | nil => simp [checkSimilarity, checkLoop]
  | cons p0 rest =>
    rw [checkSimilarity_cons_err_none_iff]
    simp only [List.head?_cons, Option.mem_def, Option.some.injEq, forall_eq']
    constructor
    · rintro ⟨out0, h0, hr⟩
      refine ⟨?_, ?_, ?_⟩
      · intro p hp
        rcases List.mem_cons.mp hp with e | m
        · rw [e]
        · exact (hr p m).1
      · intro p hp
        rcases List.mem_cons.mp hp with e | m
        · exact ⟨out0, e ▸ h0⟩
        · obtain ⟨_, out, ho, _, _⟩ := hr p m
          exact ⟨out, ho⟩
      · intro p hp o0 o h0' hp'
        rw [h0] at h0'
        cases h0'
        rcases List.mem_cons.mp hp with e | m
        · rw [e, h0] at hp'
          cases hp'
          exact ⟨rfl, rfl⟩
        · obtain ⟨_, out, ho, hv, ha⟩ := hr p m
          rw [ho] at hp'
          cases hp'
          exact ⟨hv, ha⟩
    · rintro ⟨hext, hok, heq⟩
      obtain ⟨out0, h0⟩ := hok p0 (List.mem_cons_self _ _)
      refine ⟨out0, h0, ?_⟩
      intro p m
      have hp : p ∈ p0 :: rest := List.mem_cons_of_mem _ m
      obtain ⟨out, ho⟩ := hok p hp
      obtain ⟨hv, ha⟩ := heq p hp out0 out h0 ho
      exact ⟨hext p hp, out, ho, hv, ha⟩

/-- C5: if the first file probes successfully, the files `pre` after it have its
extension and probe to its video and audio records, and the next file `bad` has
another extension, then `checkSimilarity` returns the extension-mismatch error naming
the extension of `bad` and then the extension of the first file, and the probe has been
called on the first file and on `pre` only: not on `bad`, nor on any later file. -/
theorem checkSimilarity_extension_mismatch (probe : String → Except String ffProbeOutput)
    (p0 : String) (pre : List String) (bad : String) (post : List String)
    (out0 : ffProbeOutput) (h0 : probe p0 = .ok out0)
    (hpre : ∀ p ∈ pre, Ext p = Ext p0 ∧
      ∃ out, probe p = .ok out ∧ out.Video = out0.Video ∧ out.Audio = out0.Audio)
    (hbad : Ext bad ≠ Ext p0) :
    checkSimilarity probe (p0 :: (pre ++ bad :: post)) =
      ⟨p0 :: pre,
        some ("got mismatched video extensions " ++ Ext bad ++ " and " ++ Ext p0)⟩ := by
  rw [checkSimilarity_cons_ok probe p0 _ out0 h0, checkLoop_one_append probe ⟨out0.Video, out0.Audio, Ext p0⟩ pre _ hpre]
  have e := checkLoop_cons_succ probe 0 ⟨out0.Video, out0.Audio, Ext p0⟩ bad post
  simp only [ne_eq, hbad, not_false_eq_true, if_true] at e
  rw [show (1 : Nat) = 0 + 1 from rfl, e]
  simp

/-- C5 at the list `a.mp4`, `b.mp4`, `c.mkv`: the check fails at the third file, naming
`.mkv` and `.mp4`, after probing the first two files only. -/
theorem checkSimilarity_extension_mismatch_witness :
    uniformProbe "a.mp4" = .ok ⟨sampleVideo 1920 1080, sampleAudio,
      [sampleVideo 1920 1080, sampleAudio]⟩ ∧
    Ext "b.mp4" = Ext "a.mp4" ∧ Ext "c.mkv" ≠ Ext "a.mp4" ∧
    checkSimilarity uniformProbe ["a.mp4", "b.mp4", "c.mkv"] =
      ⟨["a.mp4", "b.mp4"], some "got mismatched video extensions .mkv and .mp4"⟩ :=
  ⟨rfl, by decide, by decide,
    checkSimilarity_extension_mismatch uniformProbe "a.mp4" ["b.mp4"] "c.mkv" []
      ⟨sampleVideo 1920 1080, sampleAudio, [sampleVideo 1920 1080, sampleAudio]⟩ rfl
      (fun p hp => by
        rw [List.mem_singleton.mp hp]
        exact ⟨by decide, _, rfl, rfl, rfl⟩)
      (by decide)⟩

/-- C6: if the first file probes successfully, the files `pre` after it have its
extension and probe to its video and audio records, and the next file `bad` has its
extension and probes successfully but to a different video or audio record, then
`checkSimilarity` returns the stream-mismatch error that starts with the path of `bad`
(the video message when the video records differ, the audio message otherwise), and
the last path handed to the probe is `bad`: no file after it is probed. -/
theorem checkSimilarity_stream_mismatch (probe : String → Except String ffProbeOutput)
    (p0 : String) (pre : List String) (bad : String) (post : List String)
    (out0 outb : ffProbeOutput) (h0 : probe p0 = .ok out0)
    (hpre : ∀ p ∈ pre, Ext p = Ext p0 ∧
      ∃ out, probe p = .ok out ∧ out.Video = out0.Video ∧ out.Audio = out0.Audio)
    (hext : Ext bad = Ext p0) (hb : probe bad = .ok outb)
    (hdiff : outb.Video ≠ out0.Video ∨ outb.Audio ≠ out0.Audio) :
    checkSimilarity probe (p0 :: (pre ++ bad :: post)) =
      ⟨p0 :: (pre ++ [bad]),
        some (if outb.Video ≠ out0.Video then
            "file " ++ bad ++ " did not match first video probe. " ++
              fmtStream outb.Video ++ " vs " ++ fmtStream out0.Video
          else
            "file " ++ bad ++ " did not match first audio probe. " ++
              fmtStream outb.Audio ++ " vs " ++ fmtStream out0.Audio)⟩ := by
  rw [checkSimilarity_cons_ok probe p0 _ out0 h0, checkLoop_one_append probe ⟨out0.Video, out0.Audio, Ext p0⟩ pre _ hpre]
  have e := checkLoop_cons_succ probe 0 ⟨out0.Video, out0.Audio, Ext p0⟩ bad post
  simp only [ne_eq, hext, not_true_eq_false, if_false, hb] at e
  rw [show (1 : Nat) = 0 + 1 from rfl, e]
  by_cases hv : outb.Video = out0.Video
  · have ha : ¬ out0.Audio = outb.Audio := by
      rcases hdiff with h | h
      · exact absurd hv h
      · exact fun e => h e.symm
    simp [hv, ha]
  · have hv' : ¬ out0.Video = outb.Video := fun e => hv e.symm
    simp [hv, hv']

/-- C6 at two files of one extension with sizes 1920x1080 and 1280x720: the check fails
with the video message that names the second file. -/
theorem checkSimilarity_stream_mismatch_witness :
    mixedProbe "a.mp4" = .ok ⟨sampleVideo 1920 1080, sampleAudio,
      [sampleVideo 1920 1080, sampleAudio]⟩ ∧
    mixedProbe "b.mp4" = .ok ⟨sampleVideo 1280 720, sampleAudio,
      [sampleVideo 1280 720, sampleAudio]⟩ ∧
    Ext "b.mp4" = Ext "a.mp4" ∧
    checkSimilarity mixedProbe ["a.mp4", "b.mp4"] =
      ⟨["a.mp4", "b.mp4"],
        some ("file b.mp4 did not match first video probe. " ++
          "\x7bH.264 / AVC / MPEG-4 AVC / MPEG-4 part 10 video yuv420p 1280 720 30/1 1/15360  8\x7d" ++
          " vs " ++
          "\x7bH.264 / AVC / MPEG-4 AVC / MPEG-4 part 10 video yuv420p 1920 1080 30/1 1/15360  8\x7d")⟩ :=
  ⟨rfl, rfl, by decide,
    checkSimilarity_stream_mismatch mixedProbe "a.mp4" [] "b.mp4" []
      ⟨sampleVideo 1920 1080, sampleAudio, [sampleVideo 1920 1080, sampleAudio]⟩
      ⟨sampleVideo 1280 720, sampleAudio, [sampleVideo 1280 720, sampleAudio]⟩
      rfl (fun p hp => absurd hp (List.not_mem_nil p)) (by decide) rfl (Or.inl (by decide))⟩

/-- C7: stream selection fails with an error for every stream list that lacks a
"video"-typed record or lacks an "audio"-typed record, under either scope of the loop
variable; and so, whenever the file at some index of the list probes to such a stream
list, `checkSimilarity` returns an error, whatever the index. -/
theorem missing_stream_rejected :
    (∀ (scope : loopVarScope) (ffprobe : String → ffprobeReply) (input : String)
        (streams : List stream), ffprobe input = .decoded streams →
        ¬ hasKind "video" streams ∨ ¬ hasKind "audio" streams →
        execFfprobeCommand scope ffprobe input =
          .error "failed to find video and audio streams") ∧
    (∀ (scope : loopVarScope) (ffprobe : String → ffprobeReply) (ps : List String) (i : Nat)
        (h : i < ps.length) (streams : List stream), ffprobe ps[i] = .decoded streams →
        ¬ hasKind "video" streams ∨ ¬ hasKind "audio" streams →
        ∃ msg, (checkSimilarity (execFfprobeCommand scope ffprobe) ps).err = some msg) := by
  refine ⟨fun scope ffprobe input streams hr h =>
    execFfprobeCommand_missing scope ffprobe input streams hr h, ?_⟩
  intro scope ffprobe ps i h streams hr hm
  cases e : (checkSimilarity (execFfprobeCommand scope ffprobe) ps).err with
  | some msg => exact ⟨msg, rfl⟩
  | none =>
    obtain ⟨out, ho⟩ := checkSimilarity_probes_ok _ ps e ps[i] (List.getElem_mem _)
    rw [execFfprobeCommand_missing scope ffprobe ps[i] streams hr hm] at ho
    cases ho

/-- C7 at a list whose second file has an audio stream only. -/
theorem missing_stream_rejected_witness :
    audioOnlyReply "b.mp4" = .decoded [sampleAudio] ∧
    ¬ hasKind "video" [sampleAudio] ∧
    (checkSimilarity (execFfprobeCommand .perIteration audioOnlyReply) ["a.mp4", "b.mp4"]).err =
      some ("encountered error running ffprobe for b.mp4 - " ++
        "failed to find video and audio streams") ∧
    ∃ msg, (checkSimilarity (execFfprobeCommand .perIteration audioOnlyReply)
      ["a.mp4", "b.mp4"]).err = some msg :=
  ⟨rfl, by decide, by decide,
    missing_stream_rejected.2 .perIteration audioOnlyReply ["a.mp4", "b.mp4"] 1 (by decide)
      [sampleAudio] rfl (Or.inl (by decide))⟩

/-! ## Arguments and the pipeline: claims C8, C9 -/

theorem splitChars_intercalate (sep : Char) (l : List Char) :
    List.intercalate [sep] (splitChars sep l) = l := by
  induction l with
  | nil => simp [splitChars, List.intercalate]
  | cons c cs ih =>
    have hlen := splitChars_length sep cs
    cases e : splitChars sep cs with
    | nil => rw [e] at hlen; simp at hlen
    | cons piece pieces =>
      rw [e] at ih
      by_cases h : c = sep
      · subst h
        simp only [splitChars, if_true, e]
        rw [← ih]
        simp [List.intercalate, List.intersperse]
      · simp only [splitChars, if_neg h, e]
        rw [← ih]
        cases pieces <;> simp [List.intercalate, List.intersperse]

theorem getArgs_short (Join : String → String → String) (args : List String)
    (h : args.length < 4) :
    getArgs Join args = .error ("need at least 3 args for input directory, " ++
      "video inputs (comma separated) and output file name, got " ++ toString args.length) := by
  simp [getArgs, h]

theorem getArgs_four (Join : String → String → String) (prog dir names out : String)
    (extra : List String) :
    getArgs Join (prog :: dir :: names :: out :: extra) =
      if (Split names ',').length < 2 then
        .error ("expected at least 2 input videos, got " ++ toString (Split names ',').length)
      else
        .ok { inputDir := dir, videoFiles := Split names ',', outputFile := Join dir out } := by
  simp [getArgs, List.getD]

theorem createTempFile_eq (w : World) (inputDir inputList : String) :
    createTempFile w inputDir inputList =
      ([.write (w.Join inputDir ("tmp" ++ toString w.Unix ++ ".txt")) inputList],
        match w.WriteFile (w.Join inputDir ("tmp" ++ toString w.Unix ++ ".txt")) inputList with
        | some err => .error ("failed to create file: " ++ err)
        | none => .ok (w.Join inputDir ("tmp" ++ toString w.Unix ++ ".txt"))) := by
  simp only [createTempFile]
  split <;> rfl

theorem concatenateVideos_trace (w : World) (fa : fileArgs) (inputList : String) :
    ∀ e ∈ (concatenateVideos w fa inputList).1, e.downstream = true := by
  intro e he
  rw [concatenateVideos, createTempFile_eq] at he
  generalize w.Join fa.inputDir ("tmp" ++ toString w.Unix ++ ".txt") = tempFile at he
  cases hw : w.WriteFile tempFile inputList with
  | some err =>
    rw [hw] at he
    simp at he
    subst he
    rfl
  | none =>
    rw [hw] at he
    simp only at he
    rcases hf : w.ffmpeg tempFile fa.outputFile with ⟨output, err⟩
    rw [hf] at he
    cases err with
    | some err =>
      simp at he
      rcases he with rfl | rfl <;> rfl
    | none =>
      simp only at he
      cases hr : w.Remove tempFile <;> rw [hr] at he <;> simp at he <;>
        rcases he with rfl | rfl | rfl <;> rfl

theorem main_check_error (w : World) (args : List String) (fa : fileArgs) (t : List Effect)
    (videoPaths : List String) (err : String) (ha : getArgs w.Join args = .ok fa)
    (hp : getVideoPaths w fa = (t, .ok videoPaths))
    (hc : (checkSimilarity (execFfprobeCommand w.scope w.ffprobe) videoPaths).err = some err) :
    main w args =
      (t ++ (checkSimilarity (execFfprobeCommand w.scope w.ffprobe) videoPaths).probed.map
        Effect.probe, some ("similarity check failed: " ++ err)) := by
  simp only [main, ha, hp, hc]

theorem main_check_ok (w : World) (args : List String) (fa : fileArgs) (t : List Effect)
    (videoPaths : List String) (ha : getArgs w.Join args = .ok fa)
    (hp : getVideoPaths w fa = (t, .ok videoPaths))
    (hc : (checkSimilarity (execFfprobeCommand w.scope w.ffprobe) videoPaths).err = none) :
    main w args =
      (t ++ (checkSimilarity (execFfprobeCommand w.scope w.ffprobe) videoPaths).probed.map
          Effect.probe ++ (concatenateVideos w fa (getInputList videoPaths)).1,
        (concatenateVideos w fa (getInputList videoPaths)).2.map
          fun err => "failed to concatenate: " ++ err) := by
  simp only [main, ha, hp, hc]

theorem upstream_trace (w : World) (fa : fileArgs) (t : List Effect)
    (r : Except String (List String)) (probed : List String)
    (hp : getVideoPaths w fa = (t, r)) :
    ∀ e ∈ t ++ probed.map Effect.probe, e.downstream = false := by
  intro e he
  rcases List.mem_append.mp he with h | h
  · have := getVideoPathsLoop_trace w fa.inputDir fa.videoFiles [] e
    unfold getVideoPaths at hp
    rw [hp] at this
    exact this h
  · obtain ⟨p, _, rfl⟩ := List.mem_map.mp h
    rfl

/-- The trace of a run splits into the calls made up to the end of the check, none of
them a manifest write, concatenation or delete, and the calls made after it, which
exist only when `checkSimilarity` returned nil for the whole list of paths. -/
theorem main_trace_split (w : World) (args : List String) :
    ∃ up down, (main w args).1 = up ++ down ∧
      (∀ e ∈ up, e.downstream = false) ∧ (∀ e ∈ down, e.downstream = true) ∧
      (down ≠ [] → ∃ fa t videoPaths, getArgs w.Join args = .ok fa ∧
        getVideoPaths w fa = (t, .ok videoPaths) ∧
        (checkSimilarity (execFfprobeCommand w.scope w.ffprobe) videoPaths).err = none) := by
  cases ha : getArgs w.Join args with
  | error err =>
    refine ⟨[], [], ?_, by simp, by simp, by simp⟩
    simp [main, ha]
  | ok fa =>
    rcases hp : getVideoPaths w fa with ⟨t, r⟩
    cases r with
    | error err =>
      refine ⟨t, [], ?_, ?_, by simp, by simp⟩
      · simp [main, ha, hp]
      · have := upstream_trace w fa t _ [] hp
        simpa using this
    | ok videoPaths =>
      cases hc : (checkSimilarity (execFfprobeCommand w.scope w.ffprobe) videoPaths).err with
      | some err =>
        refine ⟨t ++ (checkSimilarity (execFfprobeCommand w.scope w.ffprobe)
          videoPaths).probed.map Effect.probe, [], ?_, upstream_trace w fa t _ _ hp,
          by simp, by simp⟩
        rw [main_check_error w args fa t videoPaths err ha hp hc]
        simp
      | none =>
        refine ⟨t ++ (checkSimilarity (execFfprobeCommand w.scope w.ffprobe)
          videoPaths).probed.map Effect.probe, _, ?_, upstream_trace w fa t _ _ hp,
          concatenateVideos_trace w fa (getInputList videoPaths), ?_⟩
        · rw [main_check_ok w args fa t videoPaths ha hp hc]
        · intro _
          exact ⟨fa, t, videoPaths, rfl, hp, hc⟩

/-- C8: `getArgs` returns an error when the argument vector has fewer than three
positional arguments, when the filename argument splits at commas into fewer than 2
names, and so when it has no comma (a one-file list); when `getArgs` succeeds,
`videoFiles` is the comma-split of the filename argument, in order, and has at least 2
names; and `main`, which calls `getArgs` first, ends a run on a one-file list in
failure without any call to the outside, so without any probe. -/
theorem getArgs_contract :
    (∀ (Join : String → String → String) (args : List String), args.length < 4 →
      getArgs Join args = .error ("need at least 3 args for input directory, " ++
        "video inputs (comma separated) and output file name, got " ++
        toString args.length)) ∧
    (∀ (Join : String → String → String) (prog dir names out : String) (extra : List String),
      (Split names ',').length < 2 →
      getArgs Join (prog :: dir :: names :: out :: extra) =
        .error ("expected at least 2 input videos, got " ++
          toString (Split names ',').length)) ∧
    (∀ (Join : String → String → String) (prog dir names out : String) (extra : List String),
      ',' ∉ names.data →
      Split names ',' = [names] ∧
      getArgs Join (prog :: dir :: names :: out :: extra) =
        .error "expected at least 2 input videos, got 1") ∧
    (∀ (Join : String → String → String) (args : List String) (fa : fileArgs),
      getArgs Join args = .ok fa →
      2 ≤ fa.videoFiles.length ∧
      ∃ prog dir names out extra, args = prog :: dir :: names :: out :: extra ∧
        fa.videoFiles = Split names ',' ∧ fa.inputDir = dir ∧ fa.outputFile = Join dir out) ∧
    (∀ (w : World) (prog dir names out : String) (extra : List String),
      ',' ∉ names.data →
      main w (prog :: dir :: names :: out :: extra) =
        ([], some ("failed to get args: " ++ "expected at least 2 input videos, got 1"))) := by
  have one : ∀ names : String, ',' ∉ names.data → Split names ',' = [names] := by
    intro names h
    have hl : (splitChars ',' names.data).length = 1 := by
      rw [splitChars_length, List.count_eq_zero.mpr h]
    have hi := splitChars_intercalate ',' names.data
    cases e : splitChars ',' names.data with
    | nil => rw [e] at hl; simp at hl
    | cons piece pieces =>
      rw [e] at hl hi
      have : pieces = [] := by
        cases pieces with
        | nil => rfl
        | cons _ _ => simp at hl
      subst this
      simp [List.intercalate, List.intersperse] at hi
      simp [Split, e, hi]
  have single : ∀ (Join : String → String → String) (prog dir names out : String)
      (extra : List String), ',' ∉ names.data →
      getArgs Join (prog :: dir :: names :: out :: extra) =
        .error "expected at least 2 input videos, got 1" := by
    intro Join prog dir names out extra h
    rw [getArgs_four, one names h]
    simp
    rfl
  refine ⟨getArgs_short, ?_, ?_, ?_, ?_⟩
  · intro Join prog dir names out extra h
    rw [getArgs_four, if_pos h]
  · intro Join prog dir names out extra h
    exact ⟨one names h, single Join prog dir names out extra h⟩
  · intro Join args fa h
    match args, h with
    | [], h => simp [getArgs] at h
    | [_], h => simp [getArgs] at h
    | [_, _], h => simp [getArgs] at h
    | [_, _, _], h => simp [getArgs] at h
    | prog :: dir :: names :: out :: extra, h =>
      rw [getArgs_four] at h
      by_cases hl : (Split names ',').length < 2
      · rw [if_pos hl] at h
        cases h
      · rw [if_neg hl] at h
        cases h
        exact ⟨by simpa using hl, prog, dir, names, out, extra, rfl, rfl, rfl, rfl⟩
  · intro w prog dir names out extra h
    simp only [main, single w.Join prog dir names out extra h]

/-- C8 at a run given the single file `a.mp4`. -/
theorem getArgs_contract_witness :
    ',' ∉ "a.mp4".data ∧
    main sampleWorld ["concat-video", "/videos", "a.mp4", "out.mp4"] =
      ([], some "failed to get args: expected at least 2 input videos, got 1") :=
  ⟨by decide, getArgs_contract.2.2.2.2 sampleWorld "concat-video" "/videos" "a.mp4" "out.mp4" []
    (by decide)⟩

/-- C9: in a run of `main`, a manifest write, a concatenation call or a manifest delete
occurs only if `checkSimilarity` returned nil for the whole list of resolved paths; and
if `checkSimilarity` returns an error, the run ends in failure with that error after
the path lookups and the probes made so far, with no write, concatenation or delete. -/
theorem main_gate (w : World) (args : List String) :
    ((∃ e ∈ (main w args).1, e.downstream = true) →
      ∃ fa t videoPaths, getArgs w.Join args = .ok fa ∧
        getVideoPaths w fa = (t, .ok videoPaths) ∧
        (checkSimilarity (execFfprobeCommand w.scope w.ffprobe) videoPaths).err = none) ∧
    (∀ fa t videoPaths err, getArgs w.Join args = .ok fa →
      getVideoPaths w fa = (t, .ok videoPaths) →
      (checkSimilarity (execFfprobeCommand w.scope w.ffprobe) videoPaths).err = some err →
      main w args =
        (t ++ (checkSimilarity (execFfprobeCommand w.scope w.ffprobe) videoPaths).probed.map
          Effect.probe, some ("similarity check failed: " ++ err)) ∧
      ∀ e ∈ (main w args).1, e.downstream = false) := by
  constructor
  · rintro ⟨e, he, hd⟩
    obtain ⟨up, down, hs, hup, _, hgate⟩ := main_trace_split w args
    apply hgate
    intro hnil
    rw [hs, hnil, List.append_nil] at he
    rw [hup e he] at hd
    cases hd
  · intro fa t videoPaths err ha hp hc
    have hm := main_check_error w args fa t videoPaths err ha hp hc
    refine ⟨hm, ?_⟩
    rw [hm]
    exact upstream_trace w fa t _ _ hp

/-- C9 at a run on two compatible files: the stats and the probes come first, then the
manifest write, the concatenation and the delete, and the check returned nil. -/
theorem main_gate_witness :
    main sampleWorld ["concat-video", "/videos", "clip1.mp4,clip2.mp4", "out.mp4"] =
      ([.stat "/videos/clip1.mp4", .stat "/videos/clip2.mp4",
        .probe "/videos/clip1.mp4", .probe "/videos/clip2.mp4",
        .write "/videos/tmp1700000000.txt"
          "file '/videos/clip1.mp4'\nfile '/videos/clip2.mp4'\n",
        .concat "/videos/tmp1700000000.txt" "/videos/out.mp4",
        .delete "/videos/tmp1700000000.txt"], none) ∧
    ∃ fa t videoPaths,
      getArgs sampleWorld.Join ["concat-video", "/videos", "clip1.mp4,clip2.mp4", "out.mp4"] =
        .ok fa ∧
      getVideoPaths sampleWorld fa = (t, .ok videoPaths) ∧
      (checkSimilarity (execFfprobeCommand sampleWorld.scope sampleWorld.ffprobe)
        videoPaths).err = none :=
  ⟨by decide,
    (main_gate sampleWorld ["concat-video", "/videos", "clip1.mp4,clip2.mp4", "out.mp4"]).1
      ⟨.delete "/videos/tmp1700000000.txt", by decide, rfl⟩⟩

end ConcatVideo
